import Mathlib

/-!
Shallow embedding of the schema-migration core of the `cartographer`
repository: the Differ (`src/migrate/differ.ts`), the SQL generator
(`src/migrate/sql-generator.ts`, concatenated into `differ.ts` in the
source snapshot), and the `MigrationManager` (`src/migrate/manager.ts`).

TypeScript `Map` objects built with `new Map(list.map(x => [key(x), x]))`
are modelled as association lists built by repeated insertion starting
from the empty list: insertion replaces the value at an existing key in
place and appends fresh keys at the end, which is exactly the JS `Map`
iteration-order semantics (first-occurrence order, last value wins).

JS `undefined` is modelled with `Option` (`none` = `undefined`), and the
`unknown`-typed `default` field value is modelled by the scalar JSON
values `JsValue` (null / boolean / number / string), the shapes that the
generator's literal formatter distinguishes.

String helpers (`includes`, `startsWith`, lower-casing, first-occurrence
`replace`, lexicographic sort) are implemented over character lists so
that every definition evaluates inside the kernel.
-/

namespace Cartographer

/-- JS truthiness-relevant scalar JSON value, modelling the `unknown`
`default` of a field (`JSON.parse`-style scalar). -/
inductive JsValue where
  | jnull
  | jbool (b : Bool)
  | jnum (n : Int)
  | jstr (s : String)
deriving DecidableEq, Repr

/-- `FieldTypeSchema` from `src/types`: the ten field types. -/
inductive FieldType where
  | uuid
  | string
  | text
  | integer
  | decimal
  | boolean
  | timestamp
  | date
  | json
  | enum
deriving DecidableEq, Repr

/-- The literal name of a field type, as it appears in descriptions. -/
def ftName : FieldType → String
  | .uuid => "uuid"
  | .string => "string"
  | .text => "text"
  | .integer => "integer"
  | .decimal => "decimal"
  | .boolean => "boolean"
  | .timestamp => "timestamp"
  | .date => "date"
  | .json => "json"
  | .enum => "enum"

/-- `RelationTypeSchema` from `src/types`. -/
inductive RelationType where
  | belongs_to
  | has_one
  | has_many
  | many_to_many
deriving DecidableEq, Repr

/-- `FieldSchema` from `src/types`. Optional JS properties are `Option`s
(`none` = absent/`undefined`). -/
structure Field where
  name : String
  type : FieldType
  description : Option String := none
  primary : Option Bool := none
  unique : Option Bool := none
  nullable : Option Bool := none
  default : Option JsValue := none
  values : Option (List String) := none
deriving DecidableEq, Repr

/-- `RelationSchema` from `src/types`. -/
structure Relation where
  name : String
  entity : String
  type : RelationType
  foreign_key : Option String := none
  through : Option String := none
  description : Option String := none
deriving DecidableEq, Repr

/-- `EntitySchema` from `src/types` (the `code_refs` metadata block is
omitted: it is never read by the migrate module). -/
structure Entity where
  name : String
  description : Option String := none
  fields : List Field
  relations : Option (List Relation) := none
deriving DecidableEq, Repr

/-- `ChangeType` from `differ.ts`. -/
inductive ChangeType where
  | entity_added
  | entity_removed
  | field_added
  | field_removed
  | field_type_changed
  | field_nullable_changed
  | field_default_changed
  | relation_added
  | relation_removed
deriving DecidableEq, Repr

/-- The string literal of a `ChangeType` (its TS union-member value). -/
def changeTypeName : ChangeType → String
  | .entity_added => "entity_added"
  | .entity_removed => "entity_removed"
  | .field_added => "field_added"
  | .field_removed => "field_removed"
  | .field_type_changed => "field_type_changed"
  | .field_nullable_changed => "field_nullable_changed"
  | .field_default_changed => "field_default_changed"
  | .relation_added => "relation_added"
  | .relation_removed => "relation_removed"

/-- A value stored in a `SpecChange`'s untyped `oldValue`/`newValue`
slot: the differ stores whole fields, field types, raw nullable flags,
default values, or relations there. -/
inductive ChangeValue where
  | vField (f : Field)
  | vType (t : FieldType)
  | vBool (b : Bool)
  | vJson (v : JsValue)
  | vRelation (r : Relation)
deriving DecidableEq, Repr

/-- `SpecChange` from `differ.ts`. -/
structure SpecChange where
  type : ChangeType
  entity : String
  field : Option String := none
  relation : Option String := none
  oldValue : Option ChangeValue := none
  newValue : Option ChangeValue := none
  breaking : Bool
  description : String
deriving DecidableEq, Repr

/-- `DiffResult` from `differ.ts`. -/
structure DiffResult where
  changes : List SpecChange
  hasBreakingChanges : Bool
  summary : List String
deriving DecidableEq, Repr

/-! ### Association-list model of the JS `Map` -/

/-- Lookup: the value stored at the first pair with the given key
(`Map.get`). -/
def mapGet {α : Type} : List (String × α) → String → Option α
  | [], _ => none
  | p :: ps, k => if p.1 = k then some p.2 else mapGet ps k

/-- `Map.has`. -/
def mapHas {α : Type} (m : List (String × α)) (k : String) : Bool :=
  (mapGet m k).isSome

/-- `Map.set`: replace in place if the key exists, append otherwise. -/
def mapInsert {α : Type} : List (String × α) → String → α → List (String × α)
  | [], k, v => [(k, v)]
  | p :: ps, k, v => if p.1 = k then (k, v) :: ps else p :: mapInsert ps k v

/-- `new Map(xs.map(x => [key(x), x]))`. -/
def buildMap {α : Type} (key : α → String) (xs : List α) : List (String × α) :=
  xs.foldl (fun m x => mapInsert m (key x) x) []

/-! ### String helpers (kernel-evaluable) -/

/-- Does `p` occur as a prefix of `l`? -/
def charsHavePre : List Char → List Char → Bool
  | _, [] => true
  | [], _ :: _ => false
  | c :: cs, d :: ds => c = d && charsHavePre cs ds

/-- Does `p` occur as a contiguous sublist of `l`? (JS `String.includes`.) -/
def charsContain (l p : List Char) : Bool :=
  charsHavePre l p ||
    match l with
    | [] => false
    | _ :: t => charsContain t p

/-- JS `s.includes(pat)`. -/
def strIncludes (s pat : String) : Bool :=
  charsContain s.toList pat.toList

/-- JS `s.startsWith(pat)`. -/
def strStarts (s pat : String) : Bool :=
  charsHavePre s.toList pat.toList

/-- JS `s.endsWith(pat)`. -/
def strEnds (s pat : String) : Bool :=
  charsHavePre s.toList.reverse pat.toList.reverse

/-- Replace the first occurrence of `pat` (JS `String.replace` with a
string pattern). -/
def replaceFirstChars (pat repl : List Char) : List Char → List Char
  | [] => if charsHavePre [] pat then repl else []
  | c :: rest =>
    if charsHavePre (c :: rest) pat then repl ++ (c :: rest).drop pat.length
    else c :: replaceFirstChars pat repl rest

/-- JS `s.replace(pat, repl)` (first occurrence only). -/
def replaceFirst (s pat repl : String) : String :=
  String.mk (replaceFirstChars pat.toList repl.toList s.toList)

/-- Lower-case every character (JS `toLowerCase` on ASCII identifiers). -/
def strLower (s : String) : String :=
  String.mk (s.toList.map Char.toLower)

/-- UTF-16 code-unit lexicographic order on BMP strings: the default JS
`Array.sort` comparator on strings. -/
def charsLe : List Char → List Char → Bool
  | [], _ => true
  | _ :: _, [] => false
  | a :: as, b :: bs => a.toNat < b.toNat || (a.toNat = b.toNat && charsLe as bs)

/-- Insert into an already sorted list. -/
def insertSorted (a : String) : List String → List String
  | [] => [a]
  | b :: bs => if charsLe a.toList b.toList then a :: b :: bs else b :: insertSorted a bs

/-- JS `Array.sort()` on strings (default comparator). Insertion sort:
the default string order is total, so this agrees with any stable sort. -/
def sortStrings : List String → List String
  | [] => []
  | a :: as => insertSorted a (sortStrings as)

/-! ### Differ (`differ.ts`) -/

/-- `isCompatibleTypeChange`: the fixed whitelist of safe widenings. -/
def isCompatibleTypeChange (oldType newType : FieldType) : Bool :=
  match oldType with
  | .string => newType = .text
  | .integer => newType = .decimal
  | _ => false

/-- Serialization used by the differ's deep default comparison
(`JSON.stringify` on scalar values). -/
def jsonStringify : JsValue → String
  | .jnull => "null"
  | .jbool b => toString b
  | .jnum n => toString n
  | .jstr s =>
    "\"" ++ String.mk (s.toList.flatMap (fun c =>
      if c = '"' then ['\\', '"'] else if c = '\\' then ['\\', '\\'] else [c])) ++ "\""

/-- `JSON.stringify` lifted over a possibly-`undefined` value
(`JSON.stringify(undefined)` evaluates to `undefined`). -/
def stringifyOptJson (v : Option JsValue) : Option String :=
  v.map jsonStringify

/-- How a possibly-`undefined` value prints inside a JS template
literal. -/
def showOptJson : Option JsValue → String
  | none => "undefined"
  | some v => jsonStringify v

/-- The `field_added` change pushed for each field of a newly added
entity (inside the `entity_added` branch of `diffEntities`): note that
`breaking` is the literal `false` there. -/
def newEntityFieldChange (entityName : String) (field : Field) : SpecChange :=
  { type := .field_added
    entity := entityName
    field := some field.name
    newValue := some (.vField field)
    breaking := false
    description := "Add field " ++ entityName ++ "." ++ field.name ++ " (" ++ ftName field.type ++ ")" }

/-- The `entity_added` change followed by one `field_added` change per
field, as pushed by `diffEntities` for an entity missing from the old
list. -/
def entityAddedChanges (entityName : String) (entity : Entity) : List SpecChange :=
  { type := .entity_added
    entity := entityName
    breaking := false
    description := "Add entity " ++ entityName
    : SpecChange }
    :: entity.fields.map (newEntityFieldChange entityName)

/-- The `entity_removed` change. -/
def entityRemovedChange (entityName : String) : SpecChange :=
  { type := .entity_removed
    entity := entityName
    breaking := true
    description := "Remove entity " ++ entityName ++ " (DESTRUCTIVE)" }

/-- The `field_added` change of `diffFields` (field new in an existing
entity): breaking iff `!nullable && default === undefined`. -/
def fieldAddedChange (entityName : String) (field : Field) : SpecChange :=
  { type := .field_added
    entity := entityName
    field := some field.name
    newValue := some (.vField field)
    breaking := !(field.nullable = some true) && field.default = none
    description :=
      "Add field " ++ entityName ++ "." ++ field.name ++ " (" ++ ftName field.type ++ ")" ++
        (if !(field.nullable = some true) && field.default = none then
          " (BREAKING: non-nullable without default)" else "") }

/-- The `field_removed` change of `diffFields`. -/
def fieldRemovedChange (entityName fieldName : String) : SpecChange :=
  { type := .field_removed
    entity := entityName
    field := some fieldName
    breaking := true
    description := "Remove field " ++ entityName ++ "." ++ fieldName ++ " (DESTRUCTIVE)" }

/-- The `field_type_changed` change of `diffFields`. -/
def typeChangeRecord (entityName fieldName : String) (oldF newF : Field) : SpecChange :=
  { type := .field_type_changed
    entity := entityName
    field := some fieldName
    oldValue := some (.vType oldF.type)
    newValue := some (.vType newF.type)
    breaking := !isCompatibleTypeChange oldF.type newF.type
    description :=
      "Change " ++ entityName ++ "." ++ fieldName ++ " type: " ++ ftName oldF.type ++
        " -> " ++ ftName newF.type ++
        (if !isCompatibleTypeChange oldF.type newF.type then " (BREAKING)" else "") }

/-- The `field_nullable_changed` change of `diffFields`: breaking iff
`old.nullable === true && new.nullable !== true`. -/
def nullableChangeRecord (entityName fieldName : String) (oldF newF : Field) : SpecChange :=
  { type := .field_nullable_changed
    entity := entityName
    field := some fieldName
    oldValue := oldF.nullable.map .vBool
    newValue := newF.nullable.map .vBool
    breaking := oldF.nullable = some true && !(newF.nullable = some true)
    description :=
      "Change " ++ entityName ++ "." ++ fieldName ++ " nullable: " ++
        toString (oldF.nullable.getD false) ++ " -> " ++ toString (newF.nullable.getD false) ++
        (if oldF.nullable = some true && !(newF.nullable = some true) then " (BREAKING)" else "") }

/-- The `field_default_changed` change of `diffFields` (always
non-breaking). -/
def defaultChangeRecord (entityName fieldName : String) (oldF newF : Field) : SpecChange :=
  { type := .field_default_changed
    entity := entityName
    field := some fieldName
    oldValue := oldF.default.map .vJson
    newValue := newF.default.map .vJson
    breaking := false
    description :=
      "Change " ++ entityName ++ "." ++ fieldName ++ " default: " ++
        showOptJson oldF.default ++ " -> " ++ showOptJson newF.default }

/-- The changes emitted by the third loop of `diffFields` for one field
present on both sides. -/
def matchedFieldChanges (entityName fieldName : String) (oldF newF : Field) : List SpecChange :=
  (if oldF.type ≠ newF.type then [typeChangeRecord entityName fieldName oldF newF] else []) ++
  (if oldF.nullable ≠ newF.nullable then [nullableChangeRecord entityName fieldName oldF newF] else []) ++
  (if stringifyOptJson oldF.default ≠ stringifyOptJson newF.default then
    [defaultChangeRecord entityName fieldName oldF newF] else [])

/-- `diffFields` from `differ.ts`. -/
def diffFields (entityName : String) (oldFields newFields : List Field) : List SpecChange :=
  let oldMap := buildMap (fun f => f.name) oldFields
  let newMap := buildMap (fun f => f.name) newFields
  (newMap.flatMap (fun p =>
    if mapHas oldMap p.1 then [] else [fieldAddedChange entityName p.2])) ++
  (oldMap.flatMap (fun p =>
    if mapHas newMap p.1 then [] else [fieldRemovedChange entityName p.1])) ++
  (newMap.flatMap (fun p =>
    match mapGet oldMap p.1 with
    | some oldF => matchedFieldChanges entityName p.1 oldF p.2
    | none => []))

/-- The `relation_added` change. -/
def relationAddedChange (entityName : String) (r : Relation) : SpecChange :=
  { type := .relation_added
    entity := entityName
    relation := some r.name
    newValue := some (.vRelation r)
    breaking := false
    description :=
      "Add relation " ++ entityName ++ "." ++ r.name ++ " -> " ++ r.entity ++
        " (" ++ (match r.type with
          | .belongs_to => "belongs_to"
          | .has_one => "has_one"
          | .has_many => "has_many"
          | .many_to_many => "many_to_many") ++ ")" }

/-- The `relation_removed` change. -/
def relationRemovedChange (entityName relationName : String) : SpecChange :=
  { type := .relation_removed
    entity := entityName
    relation := some relationName
    breaking := true
    description := "Remove relation " ++ entityName ++ "." ++ relationName ++ " (DESTRUCTIVE)" }

/-- `diffRelations` from `differ.ts`. -/
def diffRelations (entityName : String) (oldRelations newRelations : List Relation) : List SpecChange :=
  let oldMap := buildMap (fun r => r.name) oldRelations
  let newMap := buildMap (fun r => r.name) newRelations
  (newMap.flatMap (fun p =>
    if mapHas oldMap p.1 then [] else [relationAddedChange entityName p.2])) ++
  (oldMap.flatMap (fun p =>
    if mapHas newMap p.1 then [] else [relationRemovedChange entityName p.1]))

/-- `diffEntity` from `differ.ts`: field diff then relation diff, under
the new entity's name. -/
def diffEntity (oldEntity newEntity : Entity) : List SpecChange :=
  diffFields newEntity.name oldEntity.fields newEntity.fields ++
    diffRelations newEntity.name (oldEntity.relations.getD []) (newEntity.relations.getD [])

/-- `generateSummary` from `differ.ts`. -/
def generateSummary (changes : List SpecChange) : List String :=
  let added := changes.filter (fun c => strIncludes (changeTypeName c.type) "added")
  let removed := changes.filter (fun c => strIncludes (changeTypeName c.type) "removed")
  let changed := changes.filter (fun c => strIncludes (changeTypeName c.type) "changed")
  let breaking := changes.filter (fun c => c.breaking)
  (if added.length > 0 then ["+ " ++ toString added.length ++ " additions"] else []) ++
  (if removed.length > 0 then ["- " ++ toString removed.length ++ " removals"] else []) ++
  (if changed.length > 0 then ["~ " ++ toString changed.length ++ " modifications"] else []) ++
  (if breaking.length > 0 then ["! " ++ toString breaking.length ++ " breaking changes"] else [])

/-- `diffEntities` from `differ.ts`: added entities (with their fields),
removed entities, then per-entity diffs, in JS `Map` iteration order. -/
def diffEntities (oldEntities newEntities : List Entity) : DiffResult :=
  let oldMap := buildMap (fun e => e.name) oldEntities
  let newMap := buildMap (fun e => e.name) newEntities
  let changes :=
    (newMap.flatMap (fun p =>
      if mapHas oldMap p.1 then [] else entityAddedChanges p.1 p.2)) ++
    (oldMap.flatMap (fun p =>
      if mapHas newMap p.1 then [] else [entityRemovedChange p.1])) ++
    (newMap.flatMap (fun p =>
      match mapGet oldMap p.1 with
      | some oldE => diffEntity oldE p.2
      | none => []))
  { changes := changes
    hasBreakingChanges := changes.any (fun c => c.breaking)
    summary := generateSummary changes }

/-! ### SQL generator (`sql-generator.ts`) -/

/-- `SqlDialect`. -/
inductive SqlDialect where
  | postgresql
  | mysql
  | sqlite
deriving DecidableEq, Repr

/-- `MigrationOutput`. -/
structure MigrationOutput where
  up : List String
  down : List String
  description : String
  hasDestructiveChanges : Bool
  warnings : List String
deriving DecidableEq, Repr

/-- `fieldTypeToSql`: the fixed per-dialect type table. -/
def fieldTypeToSql (type : FieldType) (dialect : SqlDialect) : String :=
  match type, dialect with
  | .uuid, .postgresql => "UUID"
  | .uuid, .mysql => "CHAR(36)"
  | .uuid, .sqlite => "TEXT"
  | .string, .postgresql => "VARCHAR(255)"
  | .string, .mysql => "VARCHAR(255)"
  | .string, .sqlite => "TEXT"
  | .text, _ => "TEXT"
  | .integer, .postgresql => "INTEGER"
  | .integer, .mysql => "INT"
  | .integer, .sqlite => "INTEGER"
  | .decimal, .postgresql => "DECIMAL(10,2)"
  | .decimal, .mysql => "DECIMAL(10,2)"
  | .decimal, .sqlite => "REAL"
  | .boolean, .postgresql => "BOOLEAN"
  | .boolean, .mysql => "TINYINT(1)"
  | .boolean, .sqlite => "INTEGER"
  | .timestamp, .postgresql => "TIMESTAMP WITH TIME ZONE"
  | .timestamp, .mysql => "DATETIME"
  | .timestamp, .sqlite => "TEXT"
  | .date, .postgresql => "DATE"
  | .date, .mysql => "DATE"
  | .date, .sqlite => "TEXT"
  | .json, .postgresql => "JSONB"
  | .json, .mysql => "JSON"
  | .json, .sqlite => "TEXT"
  | .enum, .postgresql => "VARCHAR(50)"
  | .enum, .mysql => "VARCHAR(50)"
  | .enum, .sqlite => "TEXT"

/-- The snake_case conversion shared by table and column naming:
insert `_` before each uppercase letter, lower-case, strip one leading
underscore. -/
def toSnake (s : String) : String :=
  let t := strLower (String.mk (s.toList.flatMap (fun c =>
    if c.isUpper then ['_', c] else [c])))
  if strStarts t "_" then t.drop 1 else t

/-- `entityToTableName`: snake_case then pluralize with the simple
heuristics (`y`→`ies`; `s`/`x`/`ch`/`sh`→`es`; otherwise `s`). -/
def entityToTableName (entityName : String) : String :=
  let snake := toSnake entityName
  if strEnds snake "y" then snake.dropRight 1 ++ "ies"
  else if strEnds snake "s" || strEnds snake "x" || strEnds snake "ch" || strEnds snake "sh" then
    snake ++ "es"
  else snake ++ "s"

/-- `fieldToColumnName`: camelCase → snake_case. -/
def fieldToColumnName (fieldName : String) : String :=
  toSnake fieldName

/-- `formatDefaultValue`: SQL literal for a default value. -/
def formatDefaultValue (value : JsValue) (dialect : SqlDialect) : String :=
  match value with
  | .jnull => "NULL"
  | .jbool b =>
    if dialect = .postgresql then (if b then "TRUE" else "FALSE")
    else (if b then "1" else "0")
  | .jnum n => toString n
  | .jstr s => "'" ++ String.mk (s.toList.flatMap (fun c =>
      if c = '\'' then ['\'', '\''] else [c])) ++ "'"

/-- `generateCreateTable`: one column clause per field plus the two
audit columns, joined into a single `CREATE TABLE` statement. -/
def generateCreateTable (entity : Entity) (dialect : SqlDialect) : List String :=
  let tableName := entityToTableName entity.name
  let columns := entity.fields.map (fun field =>
    let columnDef := "  " ++ fieldToColumnName field.name ++ " " ++ fieldTypeToSql field.type dialect
    let columnDef := if field.primary = some true then columnDef ++ " PRIMARY KEY" else columnDef
    let columnDef :=
      if !(field.nullable = some true) && !(field.primary = some true) then
        columnDef ++ " NOT NULL" else columnDef
    let columnDef :=
      if field.unique = some true && !(field.primary = some true) then
        columnDef ++ " UNIQUE" else columnDef
    match field.default with
    | some v => columnDef ++ " DEFAULT " ++ formatDefaultValue v dialect
    | none => columnDef)
  let columns := columns ++
    (match dialect with
    | .postgresql =>
      ["  created_at TIMESTAMP WITH TIME ZONE DEFAULT CURRENT_TIMESTAMP",
       "  updated_at TIMESTAMP WITH TIME ZONE DEFAULT CURRENT_TIMESTAMP"]
    | .mysql =>
      ["  created_at DATETIME DEFAULT CURRENT_TIMESTAMP",
       "  updated_at DATETIME DEFAULT CURRENT_TIMESTAMP ON UPDATE CURRENT_TIMESTAMP"]
    | .sqlite =>
      ["  created_at TEXT DEFAULT CURRENT_TIMESTAMP",
       "  updated_at TEXT DEFAULT CURRENT_TIMESTAMP"])
  ["CREATE TABLE " ++ tableName ++ " (\n" ++ String.intercalate ",\n" columns ++ "\n);"]

/-- `generateDropTable`. -/
def generateDropTable (entityName : String) : List String :=
  ["DROP TABLE IF EXISTS " ++ entityToTableName entityName ++ ";"]

/-- `generateAddColumn` (note: unlike `generateCreateTable`, it checks
neither `primary` for `NOT NULL` nor for `UNIQUE`). -/
def generateAddColumn (entityName : String) (field : Field) (dialect : SqlDialect) : List String :=
  let columnDef := fieldTypeToSql field.type dialect
  let columnDef := if !(field.nullable = some true) then columnDef ++ " NOT NULL" else columnDef
  let columnDef := if field.unique = some true then columnDef ++ " UNIQUE" else columnDef
  let columnDef :=
    match field.default with
    | some v => columnDef ++ " DEFAULT " ++ formatDefaultValue v dialect
    | none => columnDef
  ["ALTER TABLE " ++ entityToTableName entityName ++ " ADD COLUMN " ++
    fieldToColumnName field.name ++ " " ++ columnDef ++ ";"]

/-- `generateDropColumn`. -/
def generateDropColumn (entityName fieldName : String) : List String :=
  ["ALTER TABLE " ++ entityToTableName entityName ++ " DROP COLUMN " ++
    fieldToColumnName fieldName ++ ";"]

/-- `generateAlterColumnType`: real `ALTER`/`MODIFY` for postgresql and
mysql; an explanatory SQL comment for sqlite. -/
def generateAlterColumnType (entityName fieldName : String) (newType : FieldType)
    (dialect : SqlDialect) : List String :=
  let tableName := entityToTableName entityName
  let columnName := fieldToColumnName fieldName
  match dialect with
  | .postgresql =>
    ["ALTER TABLE " ++ tableName ++ " ALTER COLUMN " ++ columnName ++ " TYPE " ++
      fieldTypeToSql newType dialect ++ ";"]
  | .mysql =>
    ["ALTER TABLE " ++ tableName ++ " MODIFY COLUMN " ++ columnName ++ " " ++
      fieldTypeToSql newType dialect ++ ";"]
  | .sqlite =>
    ["-- SQLite requires table recreation to change column type for " ++
      tableName ++ "." ++ columnName]

/-- How a raw JS `boolean | undefined` prints inside a template
literal. -/
def showOptBool : Option Bool → String
  | none => "undefined"
  | some b => toString b

/-- `generateAlterNullable`: real `ALTER` for postgresql; comments for
mysql and sqlite. The `nullable` argument is the raw JS value
(`undefined`/`true`/`false`); the postgresql branch tests its
truthiness. -/
def generateAlterNullable (entityName fieldName : String) (nullable : Option Bool)
    (dialect : SqlDialect) : List String :=
  let tableName := entityToTableName entityName
  let columnName := fieldToColumnName fieldName
  match dialect with
  | .postgresql =>
    if nullable = some true then
      ["ALTER TABLE " ++ tableName ++ " ALTER COLUMN " ++ columnName ++ " DROP NOT NULL;"]
    else
      ["ALTER TABLE " ++ tableName ++ " ALTER COLUMN " ++ columnName ++ " SET NOT NULL;"]
  | .mysql =>
    ["-- MySQL: Modify column " ++ tableName ++ "." ++ columnName ++
      " to set nullable=" ++ showOptBool nullable]
  | .sqlite =>
    ["-- SQLite requires table recreation to change nullable for " ++
      tableName ++ "." ++ columnName]

/-- `generateAlterDefault`. -/
def generateAlterDefault (entityName fieldName : String) (newDefault : Option JsValue)
    (dialect : SqlDialect) : List String :=
  let tableName := entityToTableName entityName
  let columnName := fieldToColumnName fieldName
  match newDefault with
  | none =>
    if dialect = .postgresql then
      ["ALTER TABLE " ++ tableName ++ " ALTER COLUMN " ++ columnName ++ " DROP DEFAULT;"]
    else
      ["-- Drop default for " ++ tableName ++ "." ++ columnName]
  | some v =>
    let defaultVal := formatDefaultValue v dialect
    if dialect = .postgresql || dialect = .mysql then
      ["ALTER TABLE " ++ tableName ++ " ALTER COLUMN " ++ columnName ++
        " SET DEFAULT " ++ defaultVal]
    else
      ["-- SQLite: Set default for " ++ tableName ++ "." ++ columnName ++
        " to " ++ defaultVal]

/-- How `${change.field}` (an optional string) prints in a template
literal. -/
def showOptStr : Option String → String
  | none => "undefined"
  | some s => s

/-- The raw JS value stored in a nullable-change slot. -/
def asRawBool : Option ChangeValue → Option Bool
  | some (.vBool b) => some b
  | _ => none

/-- The raw JS value stored in a default-change slot. -/
def asRawJson : Option ChangeValue → Option JsValue
  | some (.vJson v) => some v
  | _ => none

/-- The `(up, down, warnings)` fragments contributed by a single change
in `generateMigration`'s dispatch switch. The `as Field` / `as
FieldType` casts of the source are modelled by matching on the stored
`ChangeValue`; on differ-produced changes the match always succeeds. -/
def changeSql (entityMap : List (String × Entity)) (dialect : SqlDialect)
    (change : SpecChange) : List String × List String × List String :=
  match change.type with
  | .entity_added =>
    (match mapGet entityMap change.entity with
    | some entity => (generateCreateTable entity dialect, generateDropTable change.entity, [])
    | none => ([], [], []))
  | .entity_removed =>
    (generateDropTable change.entity,
     ["-- Cannot recreate dropped table " ++ entityToTableName change.entity],
     ["⚠️  Dropping table " ++ entityToTableName change.entity ++
       " - this will DELETE ALL DATA!"])
  | .field_added =>
    (match change.newValue with
    | some (.vField field) =>
      (generateAddColumn change.entity field dialect,
       generateDropColumn change.entity (showOptStr change.field),
       if change.breaking then
         ["⚠️  Adding non-nullable column " ++ change.entity ++ "." ++
           showOptStr change.field ++ " without default may fail if table has data"]
       else [])
    | _ => ([], [], []))
  | .field_removed =>
    (generateDropColumn change.entity (showOptStr change.field),
     ["-- Cannot recreate dropped column " ++ change.entity ++ "." ++ showOptStr change.field],
     ["⚠️  Dropping column " ++ change.entity ++ "." ++ showOptStr change.field ++
       " - this will DELETE COLUMN DATA!"])
  | .field_type_changed =>
    (match change.oldValue, change.newValue with
    | some (.vType oldT), some (.vType newT) =>
      (generateAlterColumnType change.entity (showOptStr change.field) newT dialect,
       generateAlterColumnType change.entity (showOptStr change.field) oldT dialect,
       if change.breaking then
         ["⚠️  Type change " ++ change.entity ++ "." ++ showOptStr change.field ++ ": " ++
           ftName oldT ++ " -> " ++ ftName newT ++ " may cause data loss"]
       else [])
    | _, _ => ([], [], []))
  | .field_nullable_changed =>
    (generateAlterNullable change.entity (showOptStr change.field)
       (asRawBool change.newValue) dialect,
     generateAlterNullable change.entity (showOptStr change.field)
       (asRawBool change.oldValue) dialect,
     if change.breaking then
       ["⚠️  Making " ++ change.entity ++ "." ++ showOptStr change.field ++
         " non-nullable may fail if NULL values exist"]
     else [])
  | .field_default_changed =>
    (match mapGet entityMap change.entity with
    | some entity =>
      (match entity.fields.find? (fun f => change.field = some f.name) with
      | some _field =>
        (generateAlterDefault change.entity (showOptStr change.field)
           (asRawJson change.newValue) dialect,
         generateAlterDefault change.entity (showOptStr change.field)
           (asRawJson change.oldValue) dialect,
         [])
      | none => ([], [], []))
    | none => ([], [], []))
  | .relation_added => ([], [], [])
  | .relation_removed => ([], [], [])

/-- `generateMigration` from `sql-generator.ts`. The source's default
dialect argument is `postgresql`. -/
def generateMigration (diffResult : DiffResult) (entities : List Entity)
    (dialect : SqlDialect) : MigrationOutput :=
  let entityMap := buildMap (fun e => e.name) entities
  let parts := diffResult.changes.map (changeSql entityMap dialect)
  let joined := String.intercalate ", " diffResult.summary
  { up := parts.flatMap (fun p => p.1)
    down := parts.flatMap (fun p => p.2.1)
    description := if joined = "" then "No changes" else joined
    hasDestructiveChanges := diffResult.hasBreakingChanges
    warnings := parts.flatMap (fun p => p.2.2) }

/-- `formatMigrationFile`. The generation timestamp (`new
Date().toISOString()` in the source) is passed in as `now`. -/
def formatMigrationFile (migration : MigrationOutput) (name now : String) : String :=
  let lines :=
    ["-- Migration: " ++ name,
     "-- Description: " ++ migration.description,
     "-- Generated: " ++ now,
     ""] ++
    (if migration.warnings.length > 0 then
      ["-- ⚠️  WARNINGS:"] ++ migration.warnings.map (fun w => "-- " ++ w) ++ [""]
    else []) ++
    ["-- Up Migration"] ++
    (if migration.up.length > 0 then migration.up else ["-- No changes"]) ++
    ["", "-- Down Migration (rollback)"] ++
    (if migration.down.length > 0 then migration.down else ["-- No changes"])
  String.intercalate "\n" lines

/-! ### Migration manager (`manager.ts`)

File I/O is modelled by an explicit `FileSystem` record holding the
state-file content (`none` = the file does not exist, or cannot be
read) and the migrations directory listing. `JSON.parse` /
`JSON.stringify` on the state record and `JSON.stringify` on an entity
list are modelled as functions carried in a `ManagerConfig`
(`JSON.parse` throwing is `parse _ = none`); the wall clock
(`new Date().toISOString()`) is the configuration's `now` string. -/

/-- Direction of a migration record. -/
inductive Direction where
  | up
  | down
deriving DecidableEq, Repr

/-- `MigrationRecord` from `manager.ts`. -/
structure MigrationRecord where
  name : String
  appliedAt : String
  hash : String
  direction : Direction
deriving DecidableEq, Repr

/-- `MigrationState` from `manager.ts`. -/
structure MigrationState where
  version : Nat
  lastSnapshot : List Entity
  history : List MigrationRecord
deriving DecidableEq, Repr

/-- `GeneratedMigration` from `manager.ts`. -/
structure GeneratedMigration where
  name : String
  timestamp : String
  diff : DiffResult
  output : MigrationOutput
  content : String
deriving DecidableEq, Repr

/-- The durable artifacts a `MigrationManager` touches: the state file
and the migration files on disk. -/
structure FileSystem where
  stateFile : Option String
  migrationFiles : List (String × String)
deriving DecidableEq, Repr

/-- External collaborators of the manager: the SQL dialect, the JSON
codec for the state record, `JSON.stringify` on entity lists (used only
to fingerprint a baseline), and the clock. -/
structure ManagerConfig where
  dialect : SqlDialect
  parse : String → Option MigrationState
  stringifyState : MigrationState → String
  stringifyEntities : List Entity → String
  now : String

/-- 32-bit signed wrap-around, as applied by JS bitwise operators. -/
def toInt32 (n : Int) : Int :=
  (n + 2 ^ 31) % 2 ^ 32 - 2 ^ 31

/-- One step of `simpleHash`: `hash = (hash << 5) - hash + char` followed
by the `hash & hash` truncation to a 32-bit integer. -/
def simpleHashStep (hash : Int) (c : Char) : Int :=
  toInt32 (toInt32 (hash * 32) - hash + c.toNat)

/-- Left-pad with zeros to eight characters (`padStart(8, "0")`). -/
def padStart8 (s : String) : String :=
  if s.length ≥ 8 then s else String.mk (List.replicate (8 - s.length) '0') ++ s

/-- `simpleHash` from `manager.ts`: the non-cryptographic content
fingerprint, `Math.abs(hash).toString(16).padStart(8, "0")`. -/
def simpleHash (str : String) : String :=
  let h := str.toList.foldl simpleHashStep 0
  padStart8 (String.mk (Nat.toDigits 16 h.natAbs))

/-- The empty default state returned when the state file is absent or
unreadable. -/
def emptyMigrationState : MigrationState :=
  { version := 1, lastSnapshot := [], history := [] }

/-- `MigrationManager.loadState`: the state file's parsed content, or
the empty default when the file is absent, unreadable, or not valid
JSON. The source performs no writes here, so it is modelled as a pure
read. -/
def loadState (cfg : ManagerConfig) (fs : FileSystem) : MigrationState :=
  match fs.stateFile with
  | none => emptyMigrationState
  | some content => (cfg.parse content).getD emptyMigrationState

/-- `MigrationManager.saveState`: whole-file overwrite of the state
file. -/
def saveState (cfg : ManagerConfig) (state : MigrationState) (fs : FileSystem) : FileSystem :=
  { fs with stateFile := some (cfg.stringifyState state) }

/-- The timestamp-based name fragment:
`now.replace(/[:.]/g, "-").slice(0, 19)`. -/
def timestampOf (now : String) : String :=
  (String.mk (now.toList.map (fun c => if c = ':' ∨ c = '.' then '-' else c))).take 19

/-- `MigrationManager.generateMigration`: diff current entities against
the persisted snapshot; `none` when there are no changes. Returns the
file system unchanged — the source path contains no write. -/
def managerGenerateMigration (cfg : ManagerConfig) (currentEntities : List Entity)
    (name : Option String) (fs : FileSystem) : Option GeneratedMigration × FileSystem :=
  let state := loadState cfg fs
  let diff := diffEntities state.lastSnapshot currentEntities
  if diff.changes.length = 0 then (none, fs)
  else
    let timestamp := timestampOf cfg.now
    let migrationName := name.getD ("migration_" ++ timestamp)
    let output := generateMigration diff currentEntities cfg.dialect
    let content := formatMigrationFile output migrationName cfg.now
    (some { name := migrationName, timestamp := timestamp, diff := diff,
            output := output, content := content }, fs)

/-- `MigrationManager.saveMigration`: write the migration file, then
re-load the state and advance `lastSnapshot`. -/
def saveMigration (cfg : ManagerConfig) (migration : GeneratedMigration)
    (currentEntities : List Entity) (fs : FileSystem) : String × FileSystem :=
  let filename := migration.timestamp ++ "_" ++ migration.name ++ ".sql"
  let fs1 := { fs with migrationFiles := fs.migrationFiles ++ [(filename, migration.content)] }
  let state := loadState cfg fs1
  (filename, saveState cfg { state with lastSnapshot := currentEntities } fs1)

/-- `MigrationManager.recordApplied`: append a history record with a
content fingerprint. -/
def recordApplied (cfg : ManagerConfig) (name : String) (direction : Direction)
    (content : String) (fs : FileSystem) : FileSystem :=
  let state := loadState cfg fs
  saveState cfg
    { state with history := state.history ++
        [{ name := name, appliedAt := cfg.now, hash := simpleHash content,
           direction := direction }] } fs

/-- Strip the `^\d{4}-\d{2}-\d{2}T\d{2}-\d{2}-\d{2}_` timestamp marker
from a migration filename when it matches. -/
def stripTimestampMarker (s : String) : String :=
  match s.toList.take 20 with
  | [a, b, c, d, e, f, g, h, i, j, k, l, m, n, o, p, q, r, t, u] =>
    if a.isDigit && b.isDigit && c.isDigit && d.isDigit && e = '-' &&
       f.isDigit && g.isDigit && h = '-' && i.isDigit && j.isDigit && k = 'T' &&
       l.isDigit && m.isDigit && n = '-' && o.isDigit && p.isDigit && q = '-' &&
       r.isDigit && t.isDigit && u = '_' then s.drop 20 else s
  | _ => s

/-- `MigrationManager.getPendingMigrations`: `.sql` files on disk whose
recovered logical name has no `direction: "up"` history entry, sorted. -/
def getPendingMigrations (cfg : ManagerConfig) (fs : FileSystem) : List String :=
  let files := fs.migrationFiles.map (fun p => p.1)
  let state := loadState cfg fs
  let appliedNames := (state.history.filter (fun h => h.direction = .up)).map (fun h => h.name)
  sortStrings
    (((files.filter (fun f => strEnds f ".sql")).map
        (fun f => replaceFirst (stripTimestampMarker f) ".sql" "")).filter
      (fun name => !appliedNames.contains name))

/-- The record returned by `MigrationManager.getStatus`. -/
structure MigrationStatus where
  hasSnapshot : Bool
  lastSnapshotEntities : Nat
  appliedCount : Nat
  pendingCount : Nat
  lastApplied : Option MigrationRecord
deriving DecidableEq, Repr

/-- `MigrationManager.getStatus`: read-only summary of the persisted
state. -/
def getStatus (cfg : ManagerConfig) (fs : FileSystem) : MigrationStatus :=
  let state := loadState cfg fs
  let pending := getPendingMigrations cfg fs
  { hasSnapshot := state.lastSnapshot.length > 0
    lastSnapshotEntities := state.lastSnapshot.length
    appliedCount := (state.history.filter (fun h => h.direction = .up)).length
    pendingCount := pending.length
    lastApplied := state.history.getLast? }

/-- The state record `MigrationManager.baseline` persists: snapshot set
to the given entities, history extended with a `"baseline"` record. -/
def baselineState (cfg : ManagerConfig) (entities : List Entity) (fs : FileSystem) : MigrationState :=
  let state := loadState cfg fs
  { state with
      lastSnapshot := entities
      history := state.history ++
        [{ name := "baseline", appliedAt := cfg.now,
           hash := simpleHash (cfg.stringifyEntities entities), direction := .up }] }

/-- `MigrationManager.baseline`. -/
def baseline (cfg : ManagerConfig) (entities : List Entity) (fs : FileSystem) : FileSystem :=
  saveState cfg (baselineState cfg entities fs) fs

/-! ### Concrete instances used by witnesses and counterexamples -/

/-- The `User` entity of the spec's example scenario. -/
def exampleUser : Entity :=
  { name := "User", fields :=
      [{ name := "id", type := .uuid, primary := some true },
       { name := "email", type := .string, unique := some true },
       { name := "name", type := .string, nullable := some true }] }

/-- A new entity carrying one non-nullable field without a default. -/
def exampleNewEntity : Entity :=
  { name := "User", fields := [{ name := "email", type := .string }] }

/-- `User` with a `bio: string` field. -/
def exampleUserBioString : Entity :=
  { name := "User", fields :=
      [{ name := "id", type := .uuid, primary := some true },
       { name := "bio", type := .string }] }

/-- `User` with the `bio` field widened to `text`. -/
def exampleUserBioText : Entity :=
  { name := "User", fields :=
      [{ name := "id", type := .uuid, primary := some true },
       { name := "bio", type := .text }] }

/-- A fixed clock reading for manager scenarios. -/
def exampleNow : String := "2026-01-01T00:00:00.000Z"

/-- The state `baseline` writes when called with no entities on a fresh
store. -/
def exampleBaselineEmptyState : MigrationState :=
  { version := 1, lastSnapshot := []
    history := [{ name := "baseline", appliedAt := exampleNow,
                  hash := simpleHash "[]", direction := .up }] }

/-- A manager configuration whose JSON codec round-trips the one state
record the empty-baseline scenario writes (`JSON.stringify([]) = "[]"`). -/
def exampleEmptyBaselineConfig : ManagerConfig :=
  { dialect := .postgresql
    parse := fun s => if s = "STATE0" then some exampleBaselineEmptyState else none
    stringifyState := fun st => if st = exampleBaselineEmptyState then "STATE0" else "OTHER"
    stringifyEntities := fun _ => "[]"
    now := exampleNow }

/-- The state `baseline` writes when called with the example user on a
fresh store. -/
def exampleBaselineUserState : MigrationState :=
  { version := 1, lastSnapshot := [exampleUser]
    history := [{ name := "baseline", appliedAt := exampleNow,
                  hash := simpleHash "ENTITIES1", direction := .up }] }

/-- A manager configuration whose JSON codec round-trips the one state
record the one-entity-baseline scenario writes. -/
def exampleUserBaselineConfig : ManagerConfig :=
  { dialect := .postgresql
    parse := fun s => if s = "STATE1" then some exampleBaselineUserState else none
    stringifyState := fun st => if st = exampleBaselineUserState then "STATE1" else "OTHER"
    stringifyEntities := fun _ => "ENTITIES1"
    now := exampleNow }

/-- A configuration whose parser rejects everything, for the
corrupt-state scenario. -/
def exampleRejectingConfig : ManagerConfig :=
  { dialect := .postgresql
    parse := fun _ => none
    stringifyState := fun _ => ""
    stringifyEntities := fun _ => ""
    now := exampleNow }

/-- An empty file store. -/
def emptyFs : FileSystem := { stateFile := none, migrationFiles := [] }

/-- The output of `generateMigration` on the spec's example scenario
(`[]` → the example `User` entity) under the source's default dialect
`postgresql`. -/
def exampleScenarioOutput : MigrationOutput :=
  generateMigration (diffEntities [] [exampleUser]) [exampleUser] .postgresql

/-- Distinctness of the keys of an association list: the invariant every
JS `Map` maintains. -/
def nodupKeys {α : Type} (m : List (String × α)) : Prop :=
  m.Pairwise (fun p q => p.1 ≠ q.1)

/-! ### Association-list lemmas -/

theorem mapGet_insert {α : Type} (m : List (String × α)) (k k' : String) (v : α) :
    mapGet (mapInsert m k v) k' = if k = k' then some v else mapGet m k' := by
  induction m with
  | nil => simp [mapInsert, mapGet]
  | cons p ps ih =>
    by_cases hpk : p.1 = k
    · simp only [mapInsert, if_pos hpk, mapGet]
      by_cases hkk : k = k'
      · simp [hkk]
      · simp [hkk, mapGet, hpk ▸ hkk]
    · simp only [mapInsert, if_neg hpk, mapGet]
      by_cases hpk' : p.1 = k'
      · have : ¬ k = k' := fun h => hpk (h ▸ hpk')
        simp [hpk', this]
      · simp [hpk', ih]

theorem mem_of_mem_mapInsert {α : Type} {m : List (String × α)} {k : String} {v : α}
    {p : String × α} (h : p ∈ mapInsert m k v) : p = (k, v) ∨ p ∈ m := by
  induction m with
  | nil => simpa [mapInsert] using h
  | cons q qs ih =>
    by_cases hqk : q.1 = k
    · simp only [mapInsert, if_pos hqk, List.mem_cons] at h
      rcases h with h | h
      · exact Or.inl h
      · exact Or.inr (List.mem_cons_of_mem _ h)
    · simp only [mapInsert, if_neg hqk, List.mem_cons] at h
      rcases h with h | h
      · exact Or.inr (h ▸ List.mem_cons_self _ _)
      · rcases ih h with h' | h'
        · exact Or.inl h'
        · exact Or.inr (List.mem_cons_of_mem _ h')

theorem nodupKeys_mapInsert {α : Type} {m : List (String × α)} (hnd : nodupKeys m)
    (k : String) (v : α) : nodupKeys (mapInsert m k v) := by
  induction m with
  | nil => simp [mapInsert, nodupKeys]
  | cons q qs ih =>
    rcases (List.pairwise_cons.mp hnd) with ⟨hq, hqs⟩
    by_cases hqk : q.1 = k
    · simp only [mapInsert, if_pos hqk]
      exact List.pairwise_cons.mpr ⟨fun r hr => hqk ▸ hq r hr, hqs⟩
    · simp only [mapInsert, if_neg hqk]
      refine List.pairwise_cons.mpr ⟨?_, ih hqs⟩
      intro r hr
      rcases mem_of_mem_mapInsert hr with h | h
      · exact h ▸ hqk
      · exact hq r h

theorem nodupKeys_buildMap {α : Type} (key : α → String) (xs : List α) :
    nodupKeys (buildMap key xs) := by
  have main : ∀ (ys : List α) (m : List (String × α)), nodupKeys m →
      nodupKeys (ys.foldl (fun m x => mapInsert m (key x) x) m) := by
    intro ys
    induction ys with
    | nil => intro m hm; exact hm
    | cons y ys ih =>
      intro m hm
      exact ih _ (nodupKeys_mapInsert hm (key y) y)
  exact main xs [] (by simp [nodupKeys])

theorem key_eq_of_mem_buildMap {α : Type} {key : α → String} {xs : List α}
    {p : String × α} (hp : p ∈ buildMap key xs) : p.1 = key p.2 := by
  have main : ∀ (ys : List α) (m : List (String × α)),
      (∀ q ∈ m, q.1 = key q.2) →
      ∀ q ∈ ys.foldl (fun m x => mapInsert m (key x) x) m, q.1 = key q.2 := by
    intro ys
    induction ys with
    | nil => intro m hm; exact hm
    | cons y ys ih =>
      intro m hm
      refine ih _ ?_
      intro q hq
      rcases mem_of_mem_mapInsert hq with h | h
      · rw [h]
      · exact hm q h
  exact main xs [] (by simp) p hp

theorem mem_of_mapGet {α : Type} {m : List (String × α)} {k : String} {v : α}
    (h : mapGet m k = some v) : (k, v) ∈ m := by
  induction m with
  | nil => simp [mapGet] at h
  | cons p ps ih =>
    by_cases hpk : p.1 = k
    · simp only [mapGet, if_pos hpk, Option.some.injEq] at h
      have : p = (k, v) := Prod.ext hpk h
      exact this ▸ List.mem_cons_self _ _
    · simp only [mapGet, if_neg hpk] at h
      exact List.mem_cons_of_mem _ (ih h)

theorem mapGet_of_mem {α : Type} {m : List (String × α)} (hnd : nodupKeys m)
    {k : String} {v : α} (h : (k, v) ∈ m) : mapGet m k = some v := by
  induction m with
  | nil => simp at h
  | cons p ps ih =>
    rcases (List.pairwise_cons.mp hnd) with ⟨hp, hps⟩
    rcases List.mem_cons.mp h with h | h
    · rw [← h]; simp [mapGet]
    · have hpk : p.1 ≠ k := by
        have := hp (k, v) h
        simpa using this
      simp only [mapGet, if_neg hpk]
      exact ih hps h

theorem mapHas_of_mem {α : Type} {m : List (String × α)} {k : String} {v : α}
    (h : (k, v) ∈ m) : mapHas m k = true := by
  induction m with
  | nil => simp at h
  | cons p ps ih =>
    by_cases hpk : p.1 = k
    · simp [mapHas, mapGet, hpk]
    · rcases List.mem_cons.mp h with h | h
      · exact absurd (congrArg Prod.fst h.symm) hpk
      · simpa [mapHas, mapGet, hpk] using ih h

theorem mapGet_eq_none_of_not_has {α : Type} {m : List (String × α)} {k : String}
    (h : mapHas m k = false) : mapGet m k = none := by
  unfold mapHas at h
  cases hg : mapGet m k with
  | none => rfl
  | some v => rw [hg] at h; simp at h

/-! ### List helper lemmas -/

theorem flatMap_nil_of {α β : Type} {l : List α} {f : α → List β}
    (h : ∀ a ∈ l, f a = []) : l.flatMap f = [] := by
  induction l with
  | nil => rfl
  | cons a as ih =>
    simp only [List.flatMap_cons, h a (List.mem_cons_self _ _), List.nil_append]
    exact ih (fun b hb => h b (List.mem_cons_of_mem _ hb))

theorem filter_flatMap_comm {α β : Type} (l : List α) (f : α → List β) (p : β → Bool) :
    (l.flatMap f).filter p = l.flatMap (fun a => (f a).filter p) := by
  induction l with
  | nil => rfl
  | cons a as ih => simp [List.flatMap_cons, List.filter_append, ih]

theorem flatMap_eq_of_nodupKeys {α β : Type} {m : List (String × α)} (hnd : nodupKeys m)
    {k : String} {v : α} (hm : (k, v) ∈ m) {g : String × α → List β}
    (h0 : ∀ p ∈ m, p.1 ≠ k → g p = []) : m.flatMap g = g (k, v) := by
  induction m with
  | nil => simp at hm
  | cons p ps ih =>
    rcases (List.pairwise_cons.mp hnd) with ⟨hp, hps⟩
    by_cases hpk : p.1 = k
    · have hpv : p = (k, v) := by
        rcases List.mem_cons.mp hm with h | h
        · exact h.symm
        · exact absurd (hpk ▸ hp (k, v) h) (by simp)
      have hnilps : ps.flatMap g = [] := by
        refine flatMap_nil_of ?_
        intro q hq
        exact h0 q (List.mem_cons_of_mem _ hq) (fun hqk => (hp q hq) (hpk.trans hqk.symm))
      simp [List.flatMap_cons, hnilps, hpv]
    · have hkv : (k, v) ∈ ps := by
        rcases List.mem_cons.mp hm with h | h
        · exact absurd (congrArg Prod.fst h.symm) hpk
        · exact h
      have hgp : g p = [] := h0 p (List.mem_cons_self _ _) hpk
      simp only [List.flatMap_cons, hgp, List.nil_append]
      exact ih hps hkv (fun q hq hqk => h0 q (List.mem_cons_of_mem _ hq) hqk)

/-! ### Structural lemmas about the differ -/

theorem entity_of_mem_diffFields {n : String} {oldFs newFs : List Field} {c : SpecChange}
    (hc : c ∈ diffFields n oldFs newFs) : c.entity = n := by
  simp only [diffFields, List.mem_append, List.mem_flatMap] at hc
  rcases hc with (⟨p, hp, hcp⟩ | ⟨p, hp, hcp⟩) | ⟨p, hp, hcp⟩
  · split at hcp
    · simp at hcp
    · rw [List.mem_singleton.mp hcp]; rfl
  · split at hcp
    · simp at hcp
    · rw [List.mem_singleton.mp hcp]; rfl
  · rcases hg : mapGet (buildMap (fun f => f.name) oldFs) p.1 with _ | oldF
    · rw [hg] at hcp; simp at hcp
    · rw [hg] at hcp
      simp only [matchedFieldChanges, List.mem_append] at hcp
      rcases hcp with (h | h) | h <;>
        · split at h
          · rw [List.mem_singleton.mp h]; rfl
          · simp at h

theorem entity_of_mem_diffRelations {n : String} {oldRs newRs : List Relation} {c : SpecChange}
    (hc : c ∈ diffRelations n oldRs newRs) : c.entity = n := by
  simp only [diffRelations, List.mem_append, List.mem_flatMap] at hc
  rcases hc with ⟨p, hp, hcp⟩ | ⟨p, hp, hcp⟩ <;>
    · split at hcp
      · simp at hcp
      · rw [List.mem_singleton.mp hcp]; rfl

theorem entity_of_mem_diffEntity {oldE newE : Entity} {c : SpecChange}
    (hc : c ∈ diffEntity oldE newE) : c.entity = newE.name := by
  rcases List.mem_append.mp hc with h | h
  · exact entity_of_mem_diffFields h
  · exact entity_of_mem_diffRelations h

theorem matchedFieldChanges_mem_diffFields {n fname : String} {oldFs newFs : List Field}
    {f f' : Field} {c : SpecChange}
    (hf : mapGet (buildMap (fun x => x.name) oldFs) fname = some f)
    (hf' : mapGet (buildMap (fun x => x.name) newFs) fname = some f')
    (hc : c ∈ matchedFieldChanges n fname f f') : c ∈ diffFields n oldFs newFs := by
  simp only [diffFields, List.mem_append]
  refine Or.inr ?_
  refine List.mem_flatMap.mpr ⟨(fname, f'), mem_of_mapGet hf', ?_⟩
  simpa [hf] using hc

theorem diffEntity_mem_changes {oldEs newEs : List Entity} {n : String} {e e' : Entity}
    {c : SpecChange}
    (he : mapGet (buildMap (fun x => x.name) oldEs) n = some e)
    (he' : mapGet (buildMap (fun x => x.name) newEs) n = some e')
    (hc : c ∈ diffEntity e e') : c ∈ (diffEntities oldEs newEs).changes := by
  simp only [diffEntities, List.mem_append]
  refine Or.inr ?_
  refine List.mem_flatMap.mpr ⟨(n, e'), mem_of_mapGet he', ?_⟩
  simpa [he] using hc

theorem matched_field_change_mem {oldEs newEs : List Entity} {n fname : String}
    {e e' : Entity} {f f' : Field} {c : SpecChange}
    (he : mapGet (buildMap (fun x => x.name) oldEs) n = some e)
    (he' : mapGet (buildMap (fun x => x.name) newEs) n = some e')
    (hf : mapGet (buildMap (fun x => x.name) e.fields) fname = some f)
    (hf' : mapGet (buildMap (fun x => x.name) e'.fields) fname = some f')
    (hc : c ∈ matchedFieldChanges n fname f f') : c ∈ (diffEntities oldEs newEs).changes := by
  have hn : n = e'.name := key_eq_of_mem_buildMap (mem_of_mapGet he')
  refine diffEntity_mem_changes he he' ?_
  exact List.mem_append_left _ (matchedFieldChanges_mem_diffFields hf hf' (hn ▸ hc))

theorem matchedFieldChanges_self (n fname : String) (f : Field) :
    matchedFieldChanges n fname f f = [] := by
  simp [matchedFieldChanges]

theorem diffFields_self (n : String) (fs : List Field) : diffFields n fs fs = [] := by
  simp only [diffFields]
  refine List.append_eq_nil.mpr ⟨List.append_eq_nil.mpr ⟨?_, ?_⟩, ?_⟩
  · refine flatMap_nil_of ?_
    intro p hp
    have : mapHas (buildMap (fun f => f.name) fs) p.1 = true := by
      have hp' : (p.1, p.2) ∈ buildMap (fun f => f.name) fs := by simpa using hp
      exact mapHas_of_mem hp'
    simp [this]
  · refine flatMap_nil_of ?_
    intro p hp
    have : mapHas (buildMap (fun f => f.name) fs) p.1 = true := by
      have hp' : (p.1, p.2) ∈ buildMap (fun f => f.name) fs := by simpa using hp
      exact mapHas_of_mem hp'
    simp [this]
  · refine flatMap_nil_of ?_
    intro p hp
    have hp' : (p.1, p.2) ∈ buildMap (fun f => f.name) fs := by simpa using hp
    have : mapGet (buildMap (fun f => f.name) fs) p.1 = some p.2 :=
      mapGet_of_mem (nodupKeys_buildMap _ _) hp'
    simp [this, matchedFieldChanges_self]

theorem diffRelations_self (n : String) (rs : List Relation) : diffRelations n rs rs = [] := by
  simp only [diffRelations]
  refine List.append_eq_nil.mpr ⟨?_, ?_⟩ <;>
    · refine flatMap_nil_of ?_
      intro p hp
      have hp' : (p.1, p.2) ∈ buildMap (fun r => r.name) rs := by simpa using hp
      have : mapHas (buildMap (fun r => r.name) rs) p.1 = true := mapHas_of_mem hp'
      simp [this]

theorem diffEntity_self (e : Entity) : diffEntity e e = [] := by
  simp [diffEntity, diffFields_self, diffRelations_self]

theorem diffEntities_self_changes (E : List Entity) : (diffEntities E E).changes = [] := by
  simp only [diffEntities]
  refine List.append_eq_nil.mpr ⟨List.append_eq_nil.mpr ⟨?_, ?_⟩, ?_⟩
  · refine flatMap_nil_of ?_
    intro p hp
    have hp' : (p.1, p.2) ∈ buildMap (fun e => e.name) E := by simpa using hp
    have : mapHas (buildMap (fun e => e.name) E) p.1 = true := mapHas_of_mem hp'
    simp [this]
  · refine flatMap_nil_of ?_
    intro p hp
    have hp' : (p.1, p.2) ∈ buildMap (fun e => e.name) E := by simpa using hp
    have : mapHas (buildMap (fun e => e.name) E) p.1 = true := mapHas_of_mem hp'
    simp [this]
  · refine flatMap_nil_of ?_
    intro p hp
    have hp' : (p.1, p.2) ∈ buildMap (fun e => e.name) E := by simpa using hp
    have : mapGet (buildMap (fun e => e.name) E) p.1 = some p.2 :=
      mapGet_of_mem (nodupKeys_buildMap _ _) hp'
    simp [this, diffEntity_self]

/-! ### Claim theorems -/

/-- Claim C6: for every entity list `E`, `diffEntities E E` returns no
changes, `hasBreakingChanges = false`, and an empty summary. -/
theorem diffEntities_idempotent (E : List Entity) :
    diffEntities E E = { changes := [], hasBreakingChanges := false, summary := [] } := by
  have h : (diffEntities E E).changes = [] := diffEntities_self_changes E
  have hc : diffEntities E E =
      { changes := (diffEntities E E).changes
        hasBreakingChanges := (diffEntities E E).changes.any (fun c => c.breaking)
        summary := generateSummary (diffEntities E E).changes } := rfl
  rw [hc, h]
  rfl

set_option maxRecDepth 10000 in
/-- Claim C1: the example scenario produces exactly one
`CREATE TABLE users` statement — with `id` as `PRIMARY KEY`, the email
column `NOT NULL UNIQUE`, and the name column nullable (no `NOT NULL`)
— and `hasDestructiveChanges = false`. The statement's exact text pins
down each column clause. -/
theorem exampleScenario_create_table :
    exampleScenarioOutput.up.filter (fun s => strStarts s "CREATE TABLE") =
      ["CREATE TABLE users (\n  id UUID PRIMARY KEY,\n  email VARCHAR(255) NOT NULL UNIQUE,\n  name VARCHAR(255),\n  created_at TIMESTAMP WITH TIME ZONE DEFAULT CURRENT_TIMESTAMP,\n  updated_at TIMESTAMP WITH TIME ZONE DEFAULT CURRENT_TIMESTAMP\n);"]
    ∧ exampleScenarioOutput.up.countP (fun s => strStarts s "CREATE TABLE users") = 1
    ∧ exampleScenarioOutput.hasDestructiveChanges = false := by
  decide

/-- Claim C2 counterexample: for an entity present only in the new
list, carrying one non-nullable field with no default, the single
`field_added` change is emitted with `breaking = false` — not `true` as
the field-level classification rule would demand. -/
theorem newEntity_field_not_classified :
    ((diffEntities [] [exampleNewEntity]).changes.filter
        (fun c => c.type == ChangeType.field_added)).map (fun c => (c.field, c.breaking))
      = [(some "email", false)]
    ∧ exampleNewEntity.fields.map (fun f => (f.nullable, f.default)) = [(none, none)] := by
  decide

/-- Every change pushed in the `entity_added` branch carries the added
entity's name. -/
theorem entity_of_mem_entityAddedChanges {m : String} {ent : Entity} {c : SpecChange}
    (hc : c ∈ entityAddedChanges m ent) : c.entity = m := by
  rcases List.mem_cons.mp hc with h | h
  · rw [h]
  · rcases List.mem_map.mp h with ⟨f, _, hf⟩
    rw [← hf]
    rfl

/-- Filtering the `entity_added` block for `field_added` changes of the
added entity keeps exactly the per-field changes. -/
theorem filter_entityAddedChanges (n : String) (e : Entity) :
    (entityAddedChanges n e).filter
        (fun c => c.type == ChangeType.field_added && c.entity == n)
      = e.fields.map (newEntityFieldChange n) := by
  simp only [entityAddedChanges, List.filter_cons]
  simp [newEntityFieldChange, List.filter_eq_self]

/-- Claim C2 (amended): for every entity present only in the new list,
`diffEntities` emits exactly one `field_added` change per field of that
entity, each with `breaking = false` unconditionally — the
nullable/default classification is not applied to fields of a newly
added entity. -/
theorem newEntity_fields_all_added (oldEs newEs : List Entity) (n : String) (e : Entity)
    (hn : mapGet (buildMap (fun x => x.name) newEs) n = some e)
    (ho : mapHas (buildMap (fun x => x.name) oldEs) n = false) :
    ((diffEntities oldEs newEs).changes.filter
        (fun c => c.type == ChangeType.field_added && c.entity == n))
      = e.fields.map (newEntityFieldChange n)
    ∧ ∀ f, (newEntityFieldChange n f).breaking = false := by
  refine ⟨?_, fun f => rfl⟩
  simp only [diffEntities, List.filter_append]
  have hA : ((buildMap (fun x => x.name) newEs).flatMap (fun p =>
        if mapHas (buildMap (fun x => x.name) oldEs) p.1 then []
        else entityAddedChanges p.1 p.2)).filter
          (fun c => c.type == ChangeType.field_added && c.entity == n)
      = e.fields.map (newEntityFieldChange n) := by
    rw [filter_flatMap_comm]
    rw [flatMap_eq_of_nodupKeys (nodupKeys_buildMap _ _) (mem_of_mapGet hn)
      (g := fun p => ((if mapHas (buildMap (fun x => x.name) oldEs) p.1 then []
        else entityAddedChanges p.1 p.2).filter
          (fun c => c.type == ChangeType.field_added && c.entity == n)))]
    · show ((if mapHas (buildMap (fun x => x.name) oldEs) n then []
        else entityAddedChanges n e).filter
          (fun c => c.type == ChangeType.field_added && c.entity == n))
        = e.fields.map (newEntityFieldChange n)
      rw [ho]
      simpa using filter_entityAddedChanges n e
    · intro p hp hpn
      refine List.filter_eq_nil_iff.mpr ?_
      intro c hc
      split at hc
      · simp at hc
      · have hce : c.entity = p.1 := entity_of_mem_entityAddedChanges hc
        simp [hce, hpn]
  have hR : ((buildMap (fun x => x.name) oldEs).flatMap (fun p =>
        if mapHas (buildMap (fun x => x.name) newEs) p.1 then []
        else [entityRemovedChange p.1])).filter
          (fun c => c.type == ChangeType.field_added && c.entity == n) = [] := by
    refine List.filter_eq_nil_iff.mpr ?_
    intro c hc
    rcases List.mem_flatMap.mp hc with ⟨p, _, hcp⟩
    split at hcp
    · simp at hcp
    · rw [List.mem_singleton.mp hcp]
      simp [entityRemovedChange]
  have hM : ((buildMap (fun x => x.name) newEs).flatMap (fun p =>
        match mapGet (buildMap (fun x => x.name) oldEs) p.1 with
        | some oldE => diffEntity oldE p.2
        | none => [])).filter
          (fun c => c.type == ChangeType.field_added && c.entity == n) = [] := by
    rw [filter_flatMap_comm]
    refine flatMap_nil_of ?_
    intro p hp
    by_cases hpn : p.1 = n
    · rw [hpn, mapGet_eq_none_of_not_has ho]
      rfl
    · rcases hg : mapGet (buildMap (fun x => x.name) oldEs) p.1 with _ | oldE
      · rw [hg]
        rfl
      · rw [hg]
        refine List.filter_eq_nil_iff.mpr ?_
        intro c hc
        simp only at hc
        have hce : c.entity = p.2.name := entity_of_mem_diffEntity hc
        have hpname : p.1 = p.2.name := key_eq_of_mem_buildMap hp
        simp [hce, ← hpname, hpn]
  rw [hA, hR, hM, List.append_nil, List.append_nil]

/-- Closed witness for the amended C2 theorem: the example new entity's
single (non-nullable, defaultless) field yields exactly one
`field_added` change with `breaking = false`. -/
theorem newEntity_fields_all_added_witness :
    mapGet (buildMap (fun x => x.name) [exampleNewEntity]) "User" = some exampleNewEntity
    ∧ mapHas (buildMap (fun x => x.name) ([] : List Entity)) "User" = false
    ∧ ((diffEntities [] [exampleNewEntity]).changes.filter
        (fun c => c.type == ChangeType.field_added && c.entity == "User"))
      = exampleNewEntity.fields.map (newEntityFieldChange "User") := by
  refine ⟨by decide, by decide, ?_⟩
  exact (newEntity_fields_all_added [] [exampleNewEntity] "User" exampleNewEntity
    (by decide) (by decide)).1

/-- Characterization of the type-change whitelist. -/
theorem isCompatibleTypeChange_iff (t t' : FieldType) :
    isCompatibleTypeChange t t' = true ↔
      (t = .string ∧ t' = .text) ∨ (t = .integer ∧ t' = .decimal) := by
  cases t <;> cases t' <;> simp [isCompatibleTypeChange]

/-- Claim C4: for every pair of same-named fields of matched entities
whose types differ, the diff contains the `field_type_changed` change,
its `breaking` flag is the negated whitelist test, and the whitelist
holds exactly for `string→text` and `integer→decimal` (so every other
transition, including the reversed pairs, is breaking). -/
theorem typeChange_breaking_iff_whitelist (oldEs newEs : List Entity) (n fname : String)
    (e e' : Entity) (f f' : Field)
    (he : mapGet (buildMap (fun x => x.name) oldEs) n = some e)
    (he' : mapGet (buildMap (fun x => x.name) newEs) n = some e')
    (hf : mapGet (buildMap (fun x => x.name) e.fields) fname = some f)
    (hf' : mapGet (buildMap (fun x => x.name) e'.fields) fname = some f')
    (hty : f.type ≠ f'.type) :
    typeChangeRecord n fname f f' ∈ (diffEntities oldEs newEs).changes
    ∧ (typeChangeRecord n fname f f').breaking = !isCompatibleTypeChange f.type f'.type
    ∧ (isCompatibleTypeChange f.type f'.type = true ↔
        (f.type = .string ∧ f'.type = .text) ∨ (f.type = .integer ∧ f'.type = .decimal)) := by
  refine ⟨?_, rfl, isCompatibleTypeChange_iff _ _⟩
  refine matched_field_change_mem he he' hf hf' ?_
  simp only [matchedFieldChanges, List.mem_append]
  exact Or.inl (Or.inl (by rw [if_pos hty]; exact List.mem_singleton_self _))

/-- Closed witness for the C4 theorem: widening `bio` from `string` to
`text` on the example `User`. -/
theorem typeChange_breaking_iff_whitelist_witness :
    mapGet (buildMap (fun x => x.name) [exampleUserBioString]) "User" = some exampleUserBioString
    ∧ ({ name := "bio", type := .string } : Field).type ≠
        ({ name := "bio", type := .text } : Field).type
    ∧ (typeChangeRecord "User" "bio" { name := "bio", type := .string }
          { name := "bio", type := .text }
        ∈ (diffEntities [exampleUserBioString] [exampleUserBioText]).changes
      ∧ (typeChangeRecord "User" "bio" { name := "bio", type := .string }
          { name := "bio", type := .text }).breaking
          = !isCompatibleTypeChange FieldType.string FieldType.text
      ∧ (isCompatibleTypeChange FieldType.string FieldType.text = true ↔
          (FieldType.string = .string ∧ FieldType.text = .text)
          ∨ (FieldType.string = .integer ∧ FieldType.text = .decimal))) := by
  refine ⟨by decide, by decide, ?_⟩
  exact typeChange_breaking_iff_whitelist [exampleUserBioString] [exampleUserBioText]
    "User" "bio" exampleUserBioString exampleUserBioText
    { name := "bio", type := .string } { name := "bio", type := .text }
    (by decide) (by decide) (by decide) (by decide) (by decide)

/-- Membership of the `field_nullable_changed` record whenever the raw
nullable flags differ (shared by the nullable-change claims). -/
theorem nullableChange_mem (oldEs newEs : List Entity) (n fname : String)
    (e e' : Entity) (f f' : Field)
    (he : mapGet (buildMap (fun x => x.name) oldEs) n = some e)
    (he' : mapGet (buildMap (fun x => x.name) newEs) n = some e')
    (hf : mapGet (buildMap (fun x => x.name) e.fields) fname = some f)
    (hf' : mapGet (buildMap (fun x => x.name) e'.fields) fname = some f')
    (hnl : f.nullable ≠ f'.nullable) :
    nullableChangeRecord n fname f f' ∈ (diffEntities oldEs newEs).changes := by
  refine matched_field_change_mem he he' hf hf' ?_
  simp only [matchedFieldChanges, List.mem_append]
  exact Or.inl (Or.inr (by rw [if_pos hnl]; exact List.mem_singleton_self _))

/-- Claim C5: for every pair of same-named fields of matched entities
whose raw nullable flags differ, the diff contains the
`field_nullable_changed` change, and it is breaking exactly when the
old flag is literally `true` and the new one is not. -/
theorem nullableChange_breaking_iff (oldEs newEs : List Entity) (n fname : String)
    (e e' : Entity) (f f' : Field)
    (he : mapGet (buildMap (fun x => x.name) oldEs) n = some e)
    (he' : mapGet (buildMap (fun x => x.name) newEs) n = some e')
    (hf : mapGet (buildMap (fun x => x.name) e.fields) fname = some f)
    (hf' : mapGet (buildMap (fun x => x.name) e'.fields) fname = some f')
    (hnl : f.nullable ≠ f'.nullable) :
    nullableChangeRecord n fname f f' ∈ (diffEntities oldEs newEs).changes
    ∧ ((nullableChangeRecord n fname f f').breaking = true ↔
        f.nullable = some true ∧ f'.nullable ≠ some true) := by
  refine ⟨nullableChange_mem oldEs newEs n fname e e' f f' he he' hf hf' hnl, ?_⟩
  simp [nullableChangeRecord]

/-- Closed witness for the C5 theorem: tightening the example `email`
field from nullable to non-nullable. -/
theorem nullableChange_breaking_iff_witness :
    (({ name := "email", type := .string, nullable := some true } : Field).nullable ≠
        ({ name := "email", type := .string, nullable := some false } : Field).nullable)
    ∧ (nullableChangeRecord "User" "email"
          { name := "email", type := .string, nullable := some true }
          { name := "email", type := .string, nullable := some false }
        ∈ (diffEntities
            [{ name := "User", fields :=
                [{ name := "email", type := .string, nullable := some true }] }]
            [{ name := "User", fields :=
                [{ name := "email", type := .string, nullable := some false }] }]).changes
      ∧ ((nullableChangeRecord "User" "email"
          { name := "email", type := .string, nullable := some true }
          { name := "email", type := .string, nullable := some false }).breaking = true ↔
          ({ name := "email", type := .string, nullable := some true } : Field).nullable
              = some true
          ∧ ({ name := "email", type := .string, nullable := some false } : Field).nullable
              ≠ some true)) := by
  refine ⟨by decide, ?_⟩
  exact nullableChange_breaking_iff
    [{ name := "User", fields := [{ name := "email", type := .string, nullable := some true }] }]
    [{ name := "User", fields := [{ name := "email", type := .string, nullable := some false }] }]
    "User" "email"
    { name := "User", fields := [{ name := "email", type := .string, nullable := some true }] }
    { name := "User", fields := [{ name := "email", type := .string, nullable := some false }] }
    { name := "email", type := .string, nullable := some true }
    { name := "email", type := .string, nullable := some false }
    (by decide) (by decide) (by decide) (by decide) (by decide)

/-- Claim C10: when a matched field's nullable flag changes between
`undefined` and `false` — both non-nullable in effect — the differ
still emits a `field_nullable_changed` change (the trigger is strict
inequality of the raw flags), and that change is non-breaking. -/
theorem nullableChange_undefined_vs_false (oldEs newEs : List Entity) (n fname : String)
    (e e' : Entity) (f f' : Field)
    (he : mapGet (buildMap (fun x => x.name) oldEs) n = some e)
    (he' : mapGet (buildMap (fun x => x.name) newEs) n = some e')
    (hf : mapGet (buildMap (fun x => x.name) e.fields) fname = some f)
    (hf' : mapGet (buildMap (fun x => x.name) e'.fields) fname = some f')
    (hflags : (f.nullable = none ∧ f'.nullable = some false)
      ∨ (f.nullable = some false ∧ f'.nullable = none)) :
    nullableChangeRecord n fname f f' ∈ (diffEntities oldEs newEs).changes
    ∧ (nullableChangeRecord n fname f f').breaking = false := by
  have hnl : f.nullable ≠ f'.nullable := by
    rcases hflags with ⟨h1, h2⟩ | ⟨h1, h2⟩ <;> simp [h1, h2]
  refine ⟨nullableChange_mem oldEs newEs n fname e e' f f' he he' hf hf' hnl, ?_⟩
  rcases hflags with ⟨h1, h2⟩ | ⟨h1, h2⟩ <;> simp [nullableChangeRecord, h1, h2]

/-- Closed witness for the C10 theorem: `priority` changing from an
absent nullable flag to an explicit `false`. -/
theorem nullableChange_undefined_vs_false_witness :
    (({ name := "priority", type := .integer } : Field).nullable = none
      ∧ ({ name := "priority", type := .integer, nullable := some false } : Field).nullable
          = some false)
    ∧ (nullableChangeRecord "Task" "priority"
          { name := "priority", type := .integer }
          { name := "priority", type := .integer, nullable := some false }
        ∈ (diffEntities
            [{ name := "Task", fields := [{ name := "priority", type := .integer }] }]
            [{ name := "Task", fields :=
                [{ name := "priority", type := .integer, nullable := some false }] }]).changes
      ∧ (nullableChangeRecord "Task" "priority"
          { name := "priority", type := .integer }
          { name := "priority", type := .integer, nullable := some false }).breaking = false) := by
  refine ⟨by decide, ?_⟩
  exact nullableChange_undefined_vs_false
    [{ name := "Task", fields := [{ name := "priority", type := .integer }] }]
    [{ name := "Task", fields :=
        [{ name := "priority", type := .integer, nullable := some false }] }]
    "Task" "priority"
    { name := "Task", fields := [{ name := "priority", type := .integer }] }
    { name := "Task", fields :=
        [{ name := "priority", type := .integer, nullable := some false }] }
    { name := "priority", type := .integer }
    { name := "priority", type := .integer, nullable := some false }
    (by decide) (by decide) (by decide) (by decide) (Or.inl (by decide))

theorem toList_append (a b : String) : (a ++ b).toList = a.toList ++ b.toList := by
  cases a
  cases b
  rfl

theorem charsHavePre_append (l1 l2 p : List Char) (h : charsHavePre l1 p = true) :
    charsHavePre (l1 ++ l2) p = true := by
  induction l1 generalizing p with
  | nil =>
    cases p with
    | nil => simp [charsHavePre]
    | cons d ds => simp [charsHavePre] at h
  | cons c cs ih =>
    cases p with
    | nil => simp [charsHavePre]
    | cons d ds =>
      simp only [List.cons_append, charsHavePre, Bool.and_eq_true] at h ⊢
      exact ⟨h.1, ih ds h.2⟩

theorem strStarts_append (a b p : String) (h : strStarts a p = true) :
    strStarts (a ++ b) p = true := by
  unfold strStarts at h ⊢
  rw [toList_append]
  exact charsHavePre_append _ _ _ h

/-- Claim C3 counterexample: a non-breaking `field_type_changed`
(`string→text`) against sqlite yields the explanatory comment in `up`
but an **empty** `warnings` list — the capability gap is not surfaced
through `MigrationOutput.warnings`. -/
theorem sqlite_gap_not_in_warnings :
    (generateMigration (diffEntities [exampleUserBioString] [exampleUserBioText])
        [exampleUserBioText] .sqlite).up
      = ["-- SQLite requires table recreation to change column type for users.bio"]
    ∧ (generateMigration (diffEntities [exampleUserBioString] [exampleUserBioText])
        [exampleUserBioText] .sqlite).warnings = []
    ∧ ((diffEntities [exampleUserBioString] [exampleUserBioText]).changes.map
        (fun c => c.type)) = [ChangeType.field_type_changed] := by
  decide

/-- Claim C3 (amended): for every `field_type_changed` change against
sqlite (with well-formed type slots) and every `field_nullable_changed`
change against sqlite or mysql, the generator emits exactly one
statement in `up` and one in `down`, each an explanatory `--` SQL
comment, and never throws (the generator is a total function); but the
capability gap itself is not pushed to `warnings` — the warnings
fragment is empty exactly when the change is classified non-breaking
(and when present it describes breaking risk, not the dialect gap). -/
theorem dialect_gap_emits_comment (em : List (String × Entity)) (d : SqlDialect)
    (c : SpecChange)
    (h : (c.type = .field_type_changed ∧ d = .sqlite ∧
            (∃ t, c.oldValue = some (.vType t)) ∧ (∃ t, c.newValue = some (.vType t)))
      ∨ (c.type = .field_nullable_changed ∧ (d = .sqlite ∨ d = .mysql))) :
    (∃ s, (changeSql em d c).1 = [s] ∧ strStarts s "--" = true)
    ∧ (∃ s, (changeSql em d c).2.1 = [s] ∧ strStarts s "--" = true)
    ∧ ((changeSql em d c).2.2 = [] ↔ c.breaking = false) := by
  rcases h with ⟨htype, hd, ⟨tOld, hOld⟩, ⟨tNew, hNew⟩⟩ | ⟨htype, hd⟩
  · simp only [changeSql, htype, hOld, hNew, hd, generateAlterColumnType]
    refine ⟨⟨_, rfl, ?_⟩, ⟨_, rfl, ?_⟩, ?_⟩
    · exact strStarts_append _ _ _ (strStarts_append _ _ _ (strStarts_append _ _ _ (by decide)))
    · exact strStarts_append _ _ _ (strStarts_append _ _ _ (strStarts_append _ _ _ (by decide)))
    · cases hb : c.breaking <;> simp [hb]
  · rcases hd with hd | hd
    · simp only [changeSql, htype, hd, generateAlterNullable]
      refine ⟨⟨_, rfl, ?_⟩, ⟨_, rfl, ?_⟩, ?_⟩
      · exact strStarts_append _ _ _ (strStarts_append _ _ _ (strStarts_append _ _ _ (by decide)))
      · exact strStarts_append _ _ _ (strStarts_append _ _ _ (strStarts_append _ _ _ (by decide)))
      · cases hb : c.breaking <;> simp [hb]
    · simp only [changeSql, htype, hd, generateAlterNullable]
      refine ⟨⟨_, rfl, ?_⟩, ⟨_, rfl, ?_⟩, ?_⟩
      · exact strStarts_append _ _ _ (strStarts_append _ _ _ (strStarts_append _ _ _
          (strStarts_append _ _ _ (strStarts_append _ _ _ (by decide)))))
      · exact strStarts_append _ _ _ (strStarts_append _ _ _ (strStarts_append _ _ _
          (strStarts_append _ _ _ (strStarts_append _ _ _ (by decide)))))
      · cases hb : c.breaking <;> simp [hb]

/-- Closed witness for the amended C3 theorem: the `string→text` type
change against sqlite. -/
theorem dialect_gap_emits_comment_witness :
    ((typeChangeRecord "User" "bio" { name := "bio", type := .string }
        { name := "bio", type := .text }).type = ChangeType.field_type_changed
      ∧ SqlDialect.sqlite = SqlDialect.sqlite
      ∧ (∃ t, (typeChangeRecord "User" "bio" { name := "bio", type := .string }
          { name := "bio", type := .text }).oldValue = some (.vType t))
      ∧ (∃ t, (typeChangeRecord "User" "bio" { name := "bio", type := .string }
          { name := "bio", type := .text }).newValue = some (.vType t)))
    ∧ ((∃ s, (changeSql [] .sqlite (typeChangeRecord "User" "bio"
          { name := "bio", type := .string } { name := "bio", type := .text })).1 = [s]
          ∧ strStarts s "--" = true)
      ∧ (∃ s, (changeSql [] .sqlite (typeChangeRecord "User" "bio"
          { name := "bio", type := .string } { name := "bio", type := .text })).2.1 = [s]
          ∧ strStarts s "--" = true)
      ∧ ((changeSql [] .sqlite (typeChangeRecord "User" "bio"
          { name := "bio", type := .string } { name := "bio", type := .text })).2.2 = []
          ↔ (typeChangeRecord "User" "bio" { name := "bio", type := .string }
              { name := "bio", type := .text }).breaking = false)) := by
  refine ⟨⟨rfl, rfl, ⟨.string, rfl⟩, ⟨.text, rfl⟩⟩, ?_⟩
  exact dialect_gap_emits_comment [] .sqlite
    (typeChangeRecord "User" "bio" { name := "bio", type := .string }
      { name := "bio", type := .text })
    (Or.inl ⟨rfl, rfl, ⟨.string, rfl⟩, ⟨.text, rfl⟩⟩)

/-- Claim C7: `MigrationManager.generateMigration` never touches the
file system, and returns `null` exactly when the diff of the current
entities against the persisted snapshot has no changes (otherwise it
returns a `GeneratedMigration`). -/
theorem managerGenerate_pure (cfg : ManagerConfig) (fs : FileSystem)
    (entities : List Entity) (name : Option String) :
    (managerGenerateMigration cfg entities name fs).2 = fs
    ∧ ((managerGenerateMigration cfg entities name fs).1 = none ↔
        (diffEntities (loadState cfg fs).lastSnapshot entities).changes = []) := by
  unfold managerGenerateMigration
  by_cases h : (diffEntities (loadState cfg fs).lastSnapshot entities).changes.length = 0
  · simp [h, List.length_eq_zero.mp h]
  · have hne : (diffEntities (loadState cfg fs).lastSnapshot entities).changes ≠ [] := by
      intro hnil
      exact h (by rw [hnil]; rfl)
    simp [h, hne]

/-- Claim C8: when the state file exists but its content does not parse
(`JSON.parse` throws, or the read fails), `loadState` returns the empty
default state. `loadState` is a pure read — the source path performs no
write, which the model reflects by giving it no file-system output. -/
theorem loadState_corrupt_yields_default (cfg : ManagerConfig) (fs : FileSystem)
    (content : String) (hex : fs.stateFile = some content)
    (hp : cfg.parse content = none) :
    loadState cfg fs = emptyMigrationState := by
  unfold loadState
  rw [hex]
  show (cfg.parse content).getD emptyMigrationState = emptyMigrationState
  rw [hp]
  rfl

/-- Closed witness for the C8 theorem: a store holding an unparseable
state file under the all-rejecting parser. -/
theorem loadState_corrupt_yields_default_witness :
    ({ stateFile := some "corrupt state", migrationFiles := [] } : FileSystem).stateFile
        = some "corrupt state"
    ∧ exampleRejectingConfig.parse "corrupt state" = none
    ∧ loadState exampleRejectingConfig
        { stateFile := some "corrupt state", migrationFiles := [] } = emptyMigrationState := by
  refine ⟨rfl, rfl, ?_⟩
  exact loadState_corrupt_yields_default exampleRejectingConfig
    { stateFile := some "corrupt state", migrationFiles := [] } "corrupt state" rfl rfl

/-- Claim C9 counterexample: after `baseline([])` on a fresh store —
with a codec that demonstrably round-trips the very state record
`baseline` writes — `getStatus` reports `hasSnapshot = false`, not
`true`: the flag reports snapshot non-emptiness, not baseline
existence. -/
theorem baseline_empty_hasSnapshot_false :
    exampleEmptyBaselineConfig.parse
        (exampleEmptyBaselineConfig.stringifyState
          (baselineState exampleEmptyBaselineConfig [] emptyFs))
      = some (baselineState exampleEmptyBaselineConfig [] emptyFs)
    ∧ (getStatus exampleEmptyBaselineConfig
        (baseline exampleEmptyBaselineConfig [] emptyFs)).hasSnapshot = false := by
  decide

/-- Claim C9 (amended): provided the state codec round-trips the record
`baseline` writes, `getStatus` after `baseline(entities)` reports
`hasSnapshot = true` exactly when the baselined entity list is
nonempty, and `lastSnapshotEntities` equal to its length (equivalently,
the entity count of the persisted snapshot). -/
theorem getStatus_after_baseline (cfg : ManagerConfig) (fs : FileSystem)
    (entities : List Entity)
    (hrt : cfg.parse (cfg.stringifyState (baselineState cfg entities fs))
      = some (baselineState cfg entities fs)) :
    (getStatus cfg (baseline cfg entities fs)).hasSnapshot = decide (entities.length > 0)
    ∧ (getStatus cfg (baseline cfg entities fs)).lastSnapshotEntities = entities.length := by
  have hload : loadState cfg (baseline cfg entities fs) = baselineState cfg entities fs := by
    unfold baseline saveState loadState
    simp [hrt]
  constructor
  · show decide ((loadState cfg (baseline cfg entities fs)).lastSnapshot.length > 0) = _
    rw [hload]
    rfl
  · show (loadState cfg (baseline cfg entities fs)).lastSnapshot.length = _
    rw [hload]
    rfl

set_option maxRecDepth 10000 in
/-- Closed witness for the amended C9 theorem: baselining the example
`User` entity yields `hasSnapshot = true` and a snapshot count of 1. -/
theorem getStatus_after_baseline_witness :
    exampleUserBaselineConfig.parse
        (exampleUserBaselineConfig.stringifyState
          (baselineState exampleUserBaselineConfig [exampleUser] emptyFs))
      = some (baselineState exampleUserBaselineConfig [exampleUser] emptyFs)
    ∧ ((getStatus exampleUserBaselineConfig
          (baseline exampleUserBaselineConfig [exampleUser] emptyFs)).hasSnapshot
        = decide ([exampleUser].length > 0)
      ∧ (getStatus exampleUserBaselineConfig
          (baseline exampleUserBaselineConfig [exampleUser] emptyFs)).lastSnapshotEntities
        = [exampleUser].length) := by
  refine ⟨by decide, ?_⟩
  exact getStatus_after_baseline exampleUserBaselineConfig emptyFs [exampleUser] (by decide)

end Cartographer
